import Mathlib

/-!
Verification of the saws credential-acquisition pipeline.

This file shallowly embeds the core of the repository:
  * the SSO token cache (`ReadSSOCache` / `WriteSSOCache` and the
    `SSOToken` JSON marshalling with its two timestamp encodings),
  * the device-authorization poll loop (`pollForToken` and its error
    classification helpers `isAuthPending` / `isSlowDown`),
  * the paginated catalog walkers (`ListAccounts` / `ListAccountRoles`),
  * the profile-name allocator (`SuggestProfileName` /
    `GenerateUniqueProfileNames`).

Machine timestamps are modelled as UTC civil datetimes (Go `time.Time`
values as used by this code are always compared and rendered in UTC, to
one-second precision).  Stateful interactions with the network are
modelled as traces: a scripted list of responses consumed in order.
-/

namespace Saws

/-! ### Decimal digit helpers (Go `time` package fixed-width numbers) -/

/-- The ASCII character for the decimal digit `n` (`n < 10`). -/
def digitChar (n : Nat) : Char := Char.ofNat (48 + n)

/-- Numeric value of an ASCII digit character, `none` for non-digits. -/
def digitVal (c : Char) : Option Nat :=
  if 48 ≤ c.toNat ∧ c.toNat ≤ 57 then some (c.toNat - 48) else none

/-- Two-digit zero-padded decimal rendering, as Go `Format` does for
the `01`, `02`, `15`, `04`, `05` layout fields. -/
def pad2 (n : Nat) : List Char := [digitChar (n / 10 % 10), digitChar (n % 10)]

/-- Four-digit zero-padded decimal rendering, as Go `Format` does for
the `2006` layout field (years `0`–`9999`). -/
def pad4 (n : Nat) : List Char := pad2 (n / 100) ++ pad2 (n % 100)

/-- Read exactly two digit characters, as Go `Parse` does for
two-digit layout fields. -/
def read2 : List Char → Option (Nat × List Char)
  | a :: b :: rest =>
    match digitVal a, digitVal b with
    | some x, some y => some (10 * x + y, rest)
    | _, _ => none
  | _ => none

/-- Read exactly four digit characters (the `2006` year field). -/
def read4 (cs : List Char) : Option (Nat × List Char) :=
  match read2 cs with
  | some (hi, rest) =>
    match read2 rest with
    | some (lo, rest2) => some (100 * hi + lo, rest2)
    | none => none
  | none => none

/-- Require a literal character, as Go `Parse` does for layout
punctuation such as `-`, `T`, `:` and literal text. -/
def expectChar (c : Char) : List Char → Option (List Char)
  | d :: rest => if d = c then some rest else none
  | [] => none

theorem digitVal_digitChar (k : Nat) (h : k < 10) :
    digitVal (digitChar k) = some k := by
  interval_cases k <;> rfl

theorem read2_pad2 (n : Nat) (h : n < 100) (rest : List Char) :
    read2 (pad2 n ++ rest) = some (n, rest) := by
  have e1 : digitVal (digitChar (n / 10 % 10)) = some (n / 10 % 10) :=
    digitVal_digitChar _ (Nat.mod_lt _ (by norm_num))
  have e2 : digitVal (digitChar (n % 10)) = some (n % 10) :=
    digitVal_digitChar _ (Nat.mod_lt _ (by norm_num))
  have key : 10 * (n / 10 % 10) + n % 10 = n := by omega
  simp only [pad2, List.cons_append, List.nil_append, read2, e1, e2, key]

theorem read4_pad4 (n : Nat) (h : n < 10000) (rest : List Char) :
    read4 (pad4 n ++ rest) = some (n, rest) := by
  have h1 : n / 100 < 100 := by omega
  have h2 : n % 100 < 100 := by omega
  have key : 100 * (n / 100) + n % 100 = n := by omega
  simp only [pad4, List.append_assoc, read4, read2_pad2 _ h1, read2_pad2 _ h2, key]

theorem expectChar_cons (c : Char) (rest : List Char) :
    expectChar c (c :: rest) = some rest := by
  simp [expectChar]

/-! ### UTC civil datetimes (model of Go `time.Time` at one-second precision) -/

/-- A civil datetime, always UTC-normalized in this development. -/
structure DateTime where
  year : Nat
  month : Nat
  day : Nat
  hour : Nat
  minute : Nat
  second : Nat
deriving DecidableEq, Repr

/-- Gregorian leap-year rule (Go `isLeap`). -/
def isLeapYear (y : Nat) : Bool := (y % 4 = 0 && y % 100 ≠ 0) || y % 400 = 0

/-- Days in a Gregorian month (Go `daysIn`). -/
def daysInMonth (y m : Nat) : Nat :=
  if m = 2 then (if isLeapYear y then 29 else 28)
  else if m = 4 ∨ m = 6 ∨ m = 9 ∨ m = 11 then 30
  else 31

/-- Validity of a civil datetime: in-range fields, year renderable with
four digits. -/
def DateTime.valid (dt : DateTime) : Prop :=
  1 ≤ dt.year ∧ dt.year ≤ 9999 ∧ 1 ≤ dt.month ∧ dt.month ≤ 12 ∧
  1 ≤ dt.day ∧ dt.day ≤ daysInMonth dt.year dt.month ∧
  dt.hour ≤ 23 ∧ dt.minute ≤ 59 ∧ dt.second ≤ 59

instance : DecidablePred DateTime.valid := fun dt => by
  unfold DateTime.valid; infer_instance

/-- Mixed-radix key that orders valid UTC datetimes exactly as Go's
instant comparison orders the instants they denote. -/
def DateTime.key (dt : DateTime) : Nat :=
  ((((dt.year * 13 + dt.month) * 32 + dt.day) * 24 + dt.hour) * 60 + dt.minute) * 60
    + dt.second

/-- Model of Go `time.Time.Before` on UTC-normalized datetimes. -/
def dtBefore (a b : DateTime) : Bool := a.key < b.key

/-- Successor day in the Gregorian calendar. -/
def nextDay (dt : DateTime) : DateTime :=
  if dt.day < daysInMonth dt.year dt.month then { dt with day := dt.day + 1 }
  else if dt.month < 12 then { dt with month := dt.month + 1, day := 1 }
  else { dt with year := dt.year + 1, month := 1, day := 1 }

/-- Predecessor day in the Gregorian calendar. -/
def prevDay (dt : DateTime) : DateTime :=
  if 1 < dt.day then { dt with day := dt.day - 1 }
  else if 1 < dt.month then { dt with month := dt.month - 1, day := daysInMonth dt.year (dt.month - 1) }
  else { dt with year := dt.year - 1, month := 12, day := 31 }

/-- Step a datetime forward a number of days. -/
def addDaysFwd : Nat → DateTime → DateTime
  | 0, dt => dt
  | n + 1, dt => addDaysFwd n (nextDay dt)

/-- Step a datetime backward a number of days. -/
def addDaysBwd : Nat → DateTime → DateTime
  | 0, dt => dt
  | n + 1, dt => addDaysBwd n (prevDay dt)

/-- Model of Go `time.Time.Add` restricted to whole seconds: shift a UTC
civil datetime by `n` seconds, carrying through the calendar. -/
def addSeconds (dt : DateTime) (n : Int) : DateTime :=
  let tot : Int := (dt.hour * 3600 + dt.minute * 60 + dt.second : Nat) + n
  let dShift : Int := Int.ediv tot 86400
  let rem : Nat := (Int.emod tot 86400).toNat
  let date := if 0 ≤ dShift then addDaysFwd dShift.toNat dt else addDaysBwd (-dShift).toNat dt
  { date with hour := rem / 3600, minute := rem / 60 % 60, second := rem % 60 }

/-! ### The two textual timestamp encodings

`SSOToken.MarshalJSON` renders `expiresAt` with Go layout
`2006-01-02T15:04:05Z07:00` (`time.RFC3339`) after converting to UTC;
`SSOToken.UnmarshalJSON` first tries that layout and falls back to the
legacy AWS CLI layout `2006-01-02T15:04:05UTC`, in which `UTC` is
literal text and the absence of a zone field means UTC. -/

/-- The 19 characters `YYYY-MM-DDTHH:MM:SS` shared by both encodings. -/
def dateTimeChars (dt : DateTime) : List Char :=
  pad4 dt.year ++ '-' :: (pad2 dt.month ++ '-' :: (pad2 dt.day ++ 'T' ::
    (pad2 dt.hour ++ ':' :: (pad2 dt.minute ++ ':' :: pad2 dt.second))))

/-- RFC 3339 rendering of a UTC datetime, as emitted by
`t.ExpiresAt.UTC().Format(time.RFC3339)`. -/
def rfc3339Chars (dt : DateTime) : List Char := dateTimeChars dt ++ ['Z']

/-- Legacy AWS CLI rendering (`2006-01-02T15:04:05UTC` layout). -/
def legacyChars (dt : DateTime) : List Char := dateTimeChars dt ++ ['U', 'T', 'C']

/-- Range-check and build a datetime, as Go `Parse` validates fields. -/
def mkDateTime (y mo d h mi s : Nat) : Option DateTime :=
  if 1 ≤ mo ∧ mo ≤ 12 ∧ 1 ≤ d ∧ d ≤ daysInMonth y mo ∧ h ≤ 23 ∧ mi ≤ 59 ∧ s ≤ 59
  then some ⟨y, mo, d, h, mi, s⟩ else none

/-- Parse the shared `YYYY-MM-DDTHH:MM:SS` portion, returning the
remaining characters. -/
def readDateTime (cs : List Char) : Option (DateTime × List Char) := do
  let (y, cs) ← read4 cs
  let cs ← expectChar '-' cs
  let (mo, cs) ← read2 cs
  let cs ← expectChar '-' cs
  let (d, cs) ← read2 cs
  let cs ← expectChar 'T' cs
  let (h, cs) ← read2 cs
  let cs ← expectChar ':' cs
  let (mi, cs) ← read2 cs
  let cs ← expectChar ':' cs
  let (s, cs) ← read2 cs
  let dt ← mkDateTime y mo d h mi s
  pure (dt, cs)

/-- Parse Go layout `2006-01-02T15:04:05Z07:00` (`time.RFC3339`): the
zone is `Z` or a signed `hh:mm` offset, which is subtracted to yield the
UTC instant.  Fractional seconds never occur in this system's data and
are not modelled. -/
def parseRFC3339 (cs : List Char) : Option DateTime := do
  let (dt, rest) ← readDateTime cs
  match rest with
  | ['Z'] => pure dt
  | sign :: tail =>
    if sign = '+' ∨ sign = '-' then do
      let (oh, tail) ← read2 tail
      let tail ← expectChar ':' tail
      let (om, tail) ← read2 tail
      match tail with
      | [] =>
        if oh ≤ 23 ∧ om ≤ 59 then
          pure (addSeconds dt (if sign = '+' then -(3600 * (oh : Int) + 60 * om) else 3600 * (oh : Int) + 60 * om))
        else none
      | _ => none
    else none
  | _ => none

/-- Parse the legacy layout `2006-01-02T15:04:05UTC`: `UTC` is literal
text, and with no zone field the instant is taken as UTC. -/
def parseLegacy (cs : List Char) : Option DateTime := do
  let (dt, rest) ← readDateTime cs
  match rest with
  | ['U', 'T', 'C'] => pure dt
  | _ => none

/-- Model of the `expiresAt` handling in `SSOToken.UnmarshalJSON`:
try RFC 3339 first, then the legacy format. -/
def parseExpiresAt (s : String) : Option DateTime :=
  match parseRFC3339 s.toList with
  | some dt => some dt
  | none => parseLegacy s.toList

/-- Model of `t.ExpiresAt.UTC().Format(time.RFC3339)`. -/
def formatExpiresAt (dt : DateTime) : String := String.mk (rfc3339Chars dt)

theorem daysInMonth_le (y m : Nat) : daysInMonth y m ≤ 31 := by
  unfold daysInMonth
  split_ifs <;> omega

theorem readDateTime_dateTimeChars (dt : DateTime) (h : dt.valid) (rest : List Char) :
    readDateTime (dateTimeChars dt ++ rest) = some (dt, rest) := by
  obtain ⟨h1, h2, h3, h4, h5, h6, h7, h8, h9⟩ := h
  have h31 : daysInMonth dt.year dt.month ≤ 31 := daysInMonth_le _ _
  have hvalid : 1 ≤ dt.month ∧ dt.month ≤ 12 ∧ 1 ≤ dt.day ∧
      dt.day ≤ daysInMonth dt.year dt.month ∧ dt.hour ≤ 23 ∧ dt.minute ≤ 59 ∧
      dt.second ≤ 59 := ⟨h3, h4, h5, h6, h7, h8, h9⟩
  simp only [dateTimeChars, readDateTime, List.append_assoc, List.cons_append, bind,
    Option.bind]
  rw [read4_pad4 _ (by omega)]
  simp only [expectChar_cons, read2_pad2 _ (by omega : dt.month < 100),
    read2_pad2 _ (by omega : dt.day < 100), read2_pad2 _ (by omega : dt.hour < 100),
    read2_pad2 _ (by omega : dt.minute < 100), read2_pad2 _ (by omega : dt.second < 100)]
  simp only [mkDateTime, if_pos hvalid]
  rfl

theorem parseRFC3339_rfc3339Chars (dt : DateTime) (h : dt.valid) :
    parseRFC3339 (rfc3339Chars dt) = some dt := by
  simp only [parseRFC3339, rfc3339Chars, bind, Option.bind,
    readDateTime_dateTimeChars dt h]
  rfl

theorem parseLegacy_legacyChars (dt : DateTime) (h : dt.valid) :
    parseLegacy (legacyChars dt) = some dt := by
  simp only [parseLegacy, legacyChars, bind, Option.bind,
    readDateTime_dateTimeChars dt h]
  rfl

theorem parseRFC3339_legacyChars (dt : DateTime) (h : dt.valid) :
    parseRFC3339 (legacyChars dt) = none := by
  simp only [parseRFC3339, legacyChars, bind, Option.bind,
    readDateTime_dateTimeChars dt h]
  rfl

theorem toList_mk (l : List Char) : (String.mk l).toList = l := rfl

theorem parseExpiresAt_rfc (dt : DateTime) (h : dt.valid) :
    parseExpiresAt (String.mk (rfc3339Chars dt)) = some dt := by
  simp only [parseExpiresAt, toList_mk, parseRFC3339_rfc3339Chars dt h]

theorem parseExpiresAt_legacy (dt : DateTime) (h : dt.valid) :
    parseExpiresAt (String.mk (legacyChars dt)) = some dt := by
  simp only [parseExpiresAt, toList_mk, parseRFC3339_legacyChars dt h,
    parseLegacy_legacyChars dt h]

theorem parseExpiresAt_format (dt : DateTime) (h : dt.valid) :
    parseExpiresAt (formatExpiresAt dt) = some dt :=
  parseExpiresAt_rfc dt h

/-! ### The SSO token cache (`internal/config`, sso cache file) -/

/-- In-memory form of a cached token (Go `SSOToken`). -/
structure SSOToken where
  startURL : String
  region : String
  accessToken : String
  expiresAt : DateTime
deriving DecidableEq, Repr

/-- Wire form of a cached token (Go `ssoTokenJSON`): the four JSON
fields, `expiresAt` as text.  A JSON object missing a field unmarshals
to the empty string. -/
structure SSOTokenJSON where
  startUrl : String
  region : String
  accessToken : String
  expiresAt : String
deriving DecidableEq, Repr

/-- Model of `SSOToken.MarshalJSON`: copy the three strings and render
`expiresAt` in UTC RFC 3339. -/
def marshalSSOToken (t : SSOToken) : SSOTokenJSON :=
  { startUrl := t.startURL
    region := t.region
    accessToken := t.accessToken
    expiresAt := formatExpiresAt t.expiresAt }

/-- Model of `SSOToken.UnmarshalJSON` applied to an already-decoded
JSON object: parse `expiresAt` (RFC 3339, then the legacy layout);
`none` models the Go error return. -/
def unmarshalSSOToken (raw : SSOTokenJSON) : Option SSOToken :=
  match parseExpiresAt raw.expiresAt with
  | none => none
  | some e => some { startURL := raw.startUrl, region := raw.region,
                     accessToken := raw.accessToken, expiresAt := e }

/-- Observable contents of one startURL's cache file. -/
inductive CacheFile
  | missing
  | notJSON
  | json (raw : SSOTokenJSON)
deriving DecidableEq, Repr

/-- Model of `ReadSSOCache`: given the current time and the state of the
cache file for the requested startURL, return the token or `none`.
The Go function returns `nil` (never an error) when the file is absent,
when `json.Unmarshal` fails (undecodable bytes or unparseable
`expiresAt`), when the access token is empty, or when the expiry is
before `now + 5min`. -/
def ReadSSOCache (now : DateTime) (file : CacheFile) : Option SSOToken :=
  match file with
  | .missing => none
  | .notJSON => none
  | .json raw =>
    match unmarshalSSOToken raw with
    | none => none
    | some token =>
      if token.accessToken = "" || dtBefore token.expiresAt (addSeconds now (5 * 60)) then
        none
      else
        some token

/-- JSON object rendering of the wire form, as `json.Marshal` emits it
(field order fixed by the Go struct; no escaping is needed for the
values this system writes). -/
def jsonRender (raw : SSOTokenJSON) : String :=
  "\x7b\"startUrl\":\"" ++ raw.startUrl ++ "\",\"region\":\"" ++ raw.region ++
    "\",\"accessToken\":\"" ++ raw.accessToken ++ "\",\"expiresAt\":\"" ++
    raw.expiresAt ++ "\"\x7d"

/-- Model of `os.WriteFile` (open with `O_TRUNC`, then write): the
sequence of file contents a concurrent reader of the path can observe,
starting from the previous contents `old` — first the truncated file,
then each partial write, ending with the full new `data`. -/
def writeFileStates (old data : String) : List String :=
  old :: (List.range (data.length + 1)).map (fun i => String.mk (data.toList.take i))

/-- Model of `WriteSSOCache` as seen by a concurrent reader of the cache
file: the observable byte states while writing token `t` over previous
contents `old`. -/
def writeSSOCacheStates (old : String) (t : SSOToken) : List String :=
  writeFileStates old (jsonRender (marshalSSOToken t))

/-! ### Substring matching (Go `strings.Contains`) -/

/-- Boolean list-prefix test. -/
def listPrefixOf : List Char → List Char → Bool
  | [], _ => true
  | _ :: _, [] => false
  | a :: as, b :: bs => a = b && listPrefixOf as bs

/-- Does `pat` occur as a contiguous run anywhere in the list? -/
def listContains (pat : List Char) : List Char → Bool
  | [] => pat.isEmpty
  | c :: rest => listPrefixOf pat (c :: rest) || listContains pat rest

/-- Model of Go `strings.Contains s sub`: case-sensitive substring
search over the full string. -/
def strContains (s sub : String) : Bool := listContains sub.toList s.toList

/-! ### The device-authorization poll loop (`internal/auth`) -/

/-- Model of `isAuthPending`: the rendered error message contains the
substring `AuthorizationPendingException`. -/
def isAuthPending (msg : String) : Bool := strContains msg "AuthorizationPendingException"

/-- Model of `isSlowDown`: the rendered error message contains the
substring `SlowDownException`. -/
def isSlowDown (msg : String) : Bool := strContains msg "SlowDownException"

/-- One scripted `CreateToken` response. -/
inductive TokenResp
  | ok (accessToken : String) (expiresIn : Int)
  | err (msg : String)
deriving DecidableEq, Repr

/-- What the `select` at the top of a non-first loop iteration observes:
the ticker fired, the 5-minute `time.After` timer fired, or the
governing context was cancelled. -/
inductive PollEvent
  | tick
  | timedOut
  | ctxDone
deriving DecidableEq, Repr

/-- Result of the poll loop. -/
inductive PollOutcome
  | token (accessToken : String) (expiresIn : Int)
  | timedOutErr
  | cancelledErr
  | fatalErr (msg : String)
  | stuck
deriving DecidableEq, Repr

/-- Poll-loop result plus instrumentation: how many `CreateToken` calls
were made and the ticker interval (seconds) at exit. -/
structure PollResult where
  outcome : PollOutcome
  calls : Nat
  finalInterval : Int
deriving DecidableEq, Repr

/-- Model of the `for` loop in `pollForToken`.  `base` is the interval
computed from the device response (Go variable `interval`), `w` the
current ticker interval, `first` the flag skipping the initial `select`,
`events` the scripted `select` outcomes, `calls` the `CreateToken` calls
so far, and the final argument the scripted `CreateToken` responses.
`.stuck` marks an exhausted script (the real loop would keep waiting). -/
def pollGo (base : Int) (w : Int) (first : Bool) (events : List PollEvent)
    (calls : Nat) (responses : List TokenResp) : PollResult :=
  if first then
    match responses with
    | [] => ⟨.stuck, calls, w⟩
    | .ok a e :: _ => ⟨.token a e, calls + 1, w⟩
    | .err m :: rest =>
      if isAuthPending m then pollGo base w false events (calls + 1) rest
      else if isSlowDown m then pollGo base (base + 5) false events (calls + 1) rest
      else ⟨.fatalErr ("failed to create token: " ++ m), calls + 1, w⟩
  else
    match events with
    | [] => ⟨.stuck, calls, w⟩
    | .timedOut :: _ => ⟨.timedOutErr, calls, w⟩
    | .ctxDone :: _ => ⟨.cancelledErr, calls, w⟩
    | .tick :: evs =>
      match responses with
      | [] => ⟨.stuck, calls, w⟩
      | .ok a e :: _ => ⟨.token a e, calls + 1, w⟩
      | .err m :: rest =>
        if isAuthPending m then pollGo base w false evs (calls + 1) rest
        else if isSlowDown m then pollGo base (base + 5) false evs (calls + 1) rest
        else ⟨.fatalErr ("failed to create token: " ++ m), calls + 1, w⟩
termination_by responses.length
decreasing_by all_goals simp_wf

/-- Model of `pollForToken`: one immediate attempt, then the event-driven
loop, with ticker interval `intervalSecs`. -/
def pollForToken (intervalSecs : Int) (events : List PollEvent)
    (responses : List TokenResp) : PollResult :=
  pollGo intervalSecs intervalSecs true events 0 responses

/-- Model of the interval defaulting in `Authenticate` (step 4):
a zero device-reported interval becomes 5 seconds. -/
def effectiveInterval (deviceInterval : Int) : Int :=
  if deviceInterval = 0 then 5 else deviceInterval

/-- Model of the polling stage of `Authenticate`. -/
def authenticatePoll (deviceInterval : Int) (events : List PollEvent)
    (responses : List TokenResp) : PollResult :=
  pollForToken (effectiveInterval deviceInterval) events responses

/-- Model of `time.Now().Add(time.Duration(tokenOut.ExpiresIn) * time.Second)`
with times as epoch seconds. -/
def tokenExpiresAt (now expiresIn : Int) : Int := now + expiresIn

/-! ### Paginated catalog discovery (`internal/credentials`) -/

/-- One account entry as returned by the provider (`sso` API). -/
structure AccountEntry where
  accountId : String
  accountName : String
  emailAddress : String
deriving DecidableEq, Repr

/-- One role entry as returned by the provider. -/
structure RoleEntry where
  accountId : String
  roleName : String
deriving DecidableEq, Repr

/-- Discovered account record built by `ListAccounts`. -/
structure DiscoveredAccount where
  accountID : String
  accountName : String
  email : String
deriving DecidableEq, Repr

/-- Discovered role record built by `ListAccountRoles`. -/
structure DiscoveredRole where
  accountID : String
  roleName : String
deriving DecidableEq, Repr

/-- One provider page: the entries plus the opaque continuation token
(`NextToken`), `none` meaning no pages remain. -/
structure AccountsPage where
  accountList : List AccountEntry
  nextToken : Option String
deriving DecidableEq, Repr

/-- One provider page of roles. -/
structure RolesPage where
  roleList : List RoleEntry
  nextToken : Option String
deriving DecidableEq, Repr

/-- A scripted response to one page request. -/
inductive ApiResp (α : Type)
  | ok (page : α)
  | err (msg : String)
deriving DecidableEq, Repr

/-- The `for` loop of `ListAccounts`, consuming scripted page responses
in the order the continuation tokens would request them.  `none` marks
an exhausted script (the real loop would issue another request). -/
def listAccountsGo (acc : List DiscoveredAccount) :
    List (ApiResp AccountsPage) → Option (Except String (List DiscoveredAccount))
  | [] => none
  | .err m :: _ => some (.error ("failed to list accounts: " ++ m))
  | .ok page :: rest =>
    let acc := acc ++ page.accountList.map
      (fun a => { accountID := a.accountId, accountName := a.accountName,
                  email := a.emailAddress })
    match page.nextToken with
    | none => some (.ok acc)
    | some _ => listAccountsGo acc rest

/-- Model of `ListAccounts`: walk all pages, accumulating entries. -/
def ListAccounts (pages : List (ApiResp AccountsPage)) :
    Option (Except String (List DiscoveredAccount)) :=
  listAccountsGo [] pages

/-- The `for` loop of `ListAccountRoles`. -/
def listAccountRolesGo (acc : List DiscoveredRole) :
    List (ApiResp RolesPage) → Option (Except String (List DiscoveredRole))
  | [] => none
  | .err m :: _ => some (.error ("failed to list account roles: " ++ m))
  | .ok page :: rest =>
    let acc := acc ++ page.roleList.map
      (fun r => { accountID := r.accountId, roleName := r.roleName })
    match page.nextToken with
    | none => some (.ok acc)
    | some _ => listAccountRolesGo acc rest

/-- Model of `ListAccountRoles`: walk all pages, accumulating entries. -/
def ListAccountRoles (pages : List (ApiResp RolesPage)) :
    Option (Except String (List DiscoveredRole)) :=
  listAccountRolesGo [] pages

/-! ### Profile-name allocation (`internal/ui`) -/

/-- SSO profile record (`profile.SSOProfile`). -/
structure SSOProfile where
  name : String
  startURL : String
  region : String
  accountID : String
  accountName : String
  roleName : String
deriving DecidableEq, Repr

/-- ASCII lowercasing of one character, modelling `strings.ToLower` on
the ASCII names this system handles. -/
def lowerChar (c : Char) : Char :=
  if 'A' ≤ c ∧ c ≤ 'Z' then Char.ofNat (c.toNat + 32) else c

/-- `strings.ToLower(strings.ReplaceAll(s, " ", "-"))`. -/
def lowerDash (s : String) : String :=
  String.mk (s.toList.map (fun c => lowerChar (if c = ' ' then '-' else c)))

/-- Model of `SuggestProfileName`: `<account>-<role>`, lower-cased, with
spaces replaced by hyphens and the fallback label `aws` for an empty
account name. -/
def SuggestProfileName (accountName roleName : String) : String :=
  let name := if accountName = "" then "aws" else accountName
  lowerDash name ++ "-" ++ lowerDash roleName

/-- The second pass of `GenerateUniqueProfileNames`: `counts` is the
batch-wide base-name multiplicity (first pass), `seen` the per-base
counter map built so far. -/
def generateNamesGo (counts : String → Nat) (seen : String → Nat) :
    List String → List String
  | [] => []
  | base :: rest =>
    if counts base > 1 then
      let k := seen base + 1
      let seen' := fun b => if b = base then k else seen b
      (if k = 1 then base else base ++ "-" ++ toString k) ::
        generateNamesGo counts seen' rest
    else
      base :: generateNamesGo counts seen rest

/-- Model of `GenerateUniqueProfileNames`: suggest a base name per
profile, count occurrences across the batch, then suffix duplicates. -/
def GenerateUniqueProfileNames (profiles : List SSOProfile) : List String :=
  let baseNames := profiles.map fun p => SuggestProfileName p.accountName p.roleName
  generateNamesGo (fun b => baseNames.count b) (fun _ => 0) baseNames

/-- Restatement of the allocator's second pass in the spec's terms, for
comparison with `generateNamesGo`: walking the base names with the list
of already-processed base names `pre` explicit, a base name occurring
more than once in the batch gets the bare name on its first occurrence
and the suffix `-(k+1)` on its `(k+1)`-st occurrence; a base name
occurring exactly once is left untouched. -/
def specNames (counts : String → Nat) (pre : List String) : List String → List String
  | [] => []
  | base :: rest =>
    (if counts base > 1 then
       (if pre.count base = 0 then base else base ++ "-" ++ toString (pre.count base + 1))
     else base) :: specNames counts (pre ++ [base]) rest

/-! ## Theorems -/

/-! ### Timestamp encodings (claim C8) -/

/--
C8: for every valid instant, the legacy `...UTC` rendering and the
standard RFC 3339 rendering parse (through the code's `expiresAt`
parser, RFC 3339 first with legacy fallback) to the same semantic
instant, and `MarshalJSON` always emits the standard RFC 3339 UTC
rendering.
-/
theorem c8_legacy_standard_same_instant (dt : DateTime) (h : dt.valid) (t : SSOToken) :
    parseExpiresAt (String.mk (legacyChars dt)) = some dt
    ∧ parseExpiresAt (String.mk (rfc3339Chars dt)) = some dt
    ∧ (marshalSSOToken t).expiresAt = String.mk (rfc3339Chars t.expiresAt) :=
  ⟨parseExpiresAt_legacy dt h, parseExpiresAt_rfc dt h, rfl⟩

/--
Witness for C8 at the spec's own example instant 2020-06-17T10:02:08:
`2020-06-17T10:02:08UTC` and `2020-06-17T10:02:08Z` parse to the same
instant.
-/
theorem c8_legacy_standard_same_instant_witness :
    String.mk (legacyChars ⟨2020, 6, 17, 10, 2, 8⟩) = "2020-06-17T10:02:08UTC"
    ∧ String.mk (rfc3339Chars ⟨2020, 6, 17, 10, 2, 8⟩) = "2020-06-17T10:02:08Z"
    ∧ parseExpiresAt (String.mk (legacyChars ⟨2020, 6, 17, 10, 2, 8⟩)) = some ⟨2020, 6, 17, 10, 2, 8⟩
    ∧ parseExpiresAt (String.mk (rfc3339Chars ⟨2020, 6, 17, 10, 2, 8⟩)) = some ⟨2020, 6, 17, 10, 2, 8⟩ :=
  ⟨by decide, by decide,
   (c8_legacy_standard_same_instant ⟨2020, 6, 17, 10, 2, 8⟩ (by decide)
     ⟨"", "", "", ⟨2020, 6, 17, 10, 2, 8⟩⟩).1,
   (c8_legacy_standard_same_instant ⟨2020, 6, 17, 10, 2, 8⟩ (by decide)
     ⟨"", "", "", ⟨2020, 6, 17, 10, 2, 8⟩⟩).2.1⟩

/-! ### Token-cache read/write (claim C2) -/

/--
C2: `ReadSSOCache` never errors: it returns `none` when the cache file
is missing, when its bytes are not decodable JSON, when `expiresAt`
parses under neither encoding, when the access token is missing (empty),
and when the expiry is already past or within the 5-minute buffer of
the current time (the code's test `ExpiresAt.Before(now.Add(5*time.Minute))`);
otherwise — expiry at least 5 minutes in the future — reading back what
`WriteSSOCache` wrote returns the token with `accessToken`, `region`,
`startURL` and `expiresAt` (to the second) exactly as written.
-/
theorem c2_readSSOCache_spec (now : DateTime) (raw : SSOTokenJSON) (tok : SSOToken) :
    ReadSSOCache now .missing = none
    ∧ ReadSSOCache now .notJSON = none
    ∧ (parseExpiresAt raw.expiresAt = none → ReadSSOCache now (.json raw) = none)
    ∧ (raw.accessToken = "" → ReadSSOCache now (.json raw) = none)
    ∧ (∀ e, parseExpiresAt raw.expiresAt = some e →
        dtBefore e (addSeconds now (5 * 60)) = true →
        ReadSSOCache now (.json raw) = none)
    ∧ (tok.expiresAt.valid → tok.accessToken ≠ "" →
        dtBefore tok.expiresAt (addSeconds now (5 * 60)) = false →
        ReadSSOCache now (.json (marshalSSOToken tok)) = some tok) := by
  refine ⟨rfl, rfl, ?_, ?_, ?_, ?_⟩
  · intro h
    simp [ReadSSOCache, unmarshalSSOToken, h]
  · intro h
    cases hp : parseExpiresAt raw.expiresAt <;>
      simp [ReadSSOCache, unmarshalSSOToken, hp, h]
  · intro e he hb
    simp only [ReadSSOCache, unmarshalSSOToken, he, hb]
    simp [hb]
  · intro hv hne hb
    simp only [ReadSSOCache, unmarshalSSOToken, marshalSSOToken,
      parseExpiresAt_format _ hv]
    simp [hne, hb]
    exact hb

/--
Witness for C2: a token written in January read back in January is
returned intact; the same cache contents read two minutes before the
stored expiry return `none`.
-/
theorem c2_readSSOCache_spec_witness :
    ReadSSOCache ⟨2020, 1, 1, 0, 0, 0⟩
        (.json (marshalSSOToken ⟨"https://my-org.awsapps.com/start", "eu-west-1", "tok-123", ⟨2020, 6, 17, 10, 2, 8⟩⟩)) =
      some ⟨"https://my-org.awsapps.com/start", "eu-west-1", "tok-123", ⟨2020, 6, 17, 10, 2, 8⟩⟩
    ∧ ReadSSOCache ⟨2020, 6, 17, 10, 0, 0⟩
        (.json (marshalSSOToken ⟨"https://my-org.awsapps.com/start", "eu-west-1", "tok-123", ⟨2020, 6, 17, 10, 2, 8⟩⟩)) = none := by
  constructor
  · exact (c2_readSSOCache_spec ⟨2020, 1, 1, 0, 0, 0⟩
      (marshalSSOToken ⟨"https://my-org.awsapps.com/start", "eu-west-1", "tok-123", ⟨2020, 6, 17, 10, 2, 8⟩⟩)
      ⟨"https://my-org.awsapps.com/start", "eu-west-1", "tok-123", ⟨2020, 6, 17, 10, 2, 8⟩⟩).2.2.2.2.2
      (by decide) (by decide) (by decide)
  · exact (c2_readSSOCache_spec ⟨2020, 6, 17, 10, 0, 0⟩
      (marshalSSOToken ⟨"https://my-org.awsapps.com/start", "eu-west-1", "tok-123", ⟨2020, 6, 17, 10, 2, 8⟩⟩)
      ⟨"https://my-org.awsapps.com/start", "eu-west-1", "tok-123", ⟨2020, 6, 17, 10, 2, 8⟩⟩).2.2.2.2.1
      ⟨2020, 6, 17, 10, 2, 8⟩ (by decide) (by decide)

/--
C2 boundary counterexample: when the stored expiry is exactly 5 minutes
after the current time — within 5 minutes of now, and not more than
5 minutes in the future — `ReadSSOCache` returns the token rather than
absent, because the code's test `ExpiresAt.Before(now.Add(5*time.Minute))`
is a strict comparison.  So the claimed partition (absent for expiries
within 5 minutes, token only for expiries more than 5 minutes out) fails
at the boundary instant.
-/
theorem c2_boundary_counterexample :
    ReadSSOCache ⟨2020, 6, 17, 10, 0, 0⟩
        (.json (marshalSSOToken ⟨"u", "r", "t", ⟨2020, 6, 17, 10, 5, 0⟩⟩)) =
      some ⟨"u", "r", "t", ⟨2020, 6, 17, 10, 5, 0⟩⟩
    ∧ addSeconds ⟨2020, 6, 17, 10, 0, 0⟩ (5 * 60) = ⟨2020, 6, 17, 10, 5, 0⟩
    ∧ dtBefore ⟨2020, 6, 17, 10, 5, 0⟩ (addSeconds ⟨2020, 6, 17, 10, 0, 0⟩ (5 * 60)) = false := by
  refine ⟨by decide, by decide, by decide⟩

/-! ### Cache write is not an atomic replace-by-path (claim C3) -/

/--
C3 counterexample: `WriteSSOCache` writes through `os.WriteFile`, which
truncates the cache file in place before writing; a concurrent reader
can observe the truncated (empty) file, a state that is neither the
complete previous contents nor the complete new contents.  So it is
false that every observable state during a write equals the old or the
new contents.
-/
theorem c3_write_atomic_counterexample :
    ¬ (∀ s ∈ writeSSOCacheStates "previous-cache-contents"
          ⟨"u", "r", "t", ⟨2020, 6, 17, 10, 2, 8⟩⟩,
        s = "previous-cache-contents"
        ∨ s = jsonRender (marshalSSOToken ⟨"u", "r", "t", ⟨2020, 6, 17, 10, 2, 8⟩⟩)) := by
  intro h
  have hmem : ("" : String) ∈ writeSSOCacheStates "previous-cache-contents"
      ⟨"u", "r", "t", ⟨2020, 6, 17, 10, 2, 8⟩⟩ := by decide
  rcases h "" hmem with h1 | h1 <;> exact absurd h1 (by decide)

/--
C3 amended: the write is an in-place truncate-then-write, not an atomic
replace-by-path: the previous contents stay intact until the file is
truncated, every state a concurrent reader can observe is either the
previous contents or a prefix (possibly empty, possibly complete) of the
new serialized token, and the final state is exactly the new contents —
but intermediate truncated/partial states are observable, and a write
that fails midway leaves such a state rather than the previous contents.
-/
theorem c3_write_truncate_then_write (old : String) (t : SSOToken) :
    (writeSSOCacheStates old t).head? = some old
    ∧ (writeSSOCacheStates old t).getLast? = some (jsonRender (marshalSSOToken t))
    ∧ ∀ s ∈ writeSSOCacheStates old t,
        s = old ∨ ∃ i, s = String.mk ((jsonRender (marshalSSOToken t)).toList.take i) := by
  refine ⟨rfl, ?_, ?_⟩
  · show (writeFileStates old (jsonRender (marshalSSOToken t))).getLast? = _
    set data := jsonRender (marshalSSOToken t) with hdata
    have htake : data.toList.take data.length = data.toList := List.take_length _
    have hcat : writeFileStates old data =
        (old :: (List.range data.length).map (fun i => String.mk (data.toList.take i)))
          ++ [data] := by
      rw [writeFileStates, List.range_succ, List.map_append, List.map_singleton, htake]
      rfl
    rw [hcat, List.getLast?_concat]
  · intro s hs
    rcases List.mem_cons.mp hs with h | h
    · exact Or.inl h
    · right
      rcases List.mem_map.mp h with ⟨i, _, hi⟩
      exact ⟨i, hi.symm⟩

/-! ### Poll-loop error classification and bounds (claim C4) -/

/--
C4: in any state of the poll loop, an authorization-pending error lets
polling continue with the ticker interval unchanged; a slow-down error
lets polling continue with the ticker interval set to the device
interval increased by the fixed 5-second penalty; any other error ends
the loop at once with a fatal error and no further `CreateToken` call;
and the 5-minute absolute timeout firing and context cancellation each
abort the loop immediately with their own distinct error.
-/
theorem c4_poll_error_classification (base w : Int) (evs : List PollEvent) (calls : Nat)
    (resps : List TokenResp) (msg : String) :
    (isAuthPending msg = true →
      pollGo base w false (.tick :: evs) calls (.err msg :: resps) =
        pollGo base w false evs (calls + 1) resps)
    ∧ (isAuthPending msg = false → isSlowDown msg = true →
      pollGo base w false (.tick :: evs) calls (.err msg :: resps) =
        pollGo base (base + 5) false evs (calls + 1) resps)
    ∧ (isAuthPending msg = false → isSlowDown msg = false →
      pollGo base w false (.tick :: evs) calls (.err msg :: resps) =
        ⟨.fatalErr ("failed to create token: " ++ msg), calls + 1, w⟩)
    ∧ pollGo base w false (.timedOut :: evs) calls resps = ⟨.timedOutErr, calls, w⟩
    ∧ pollGo base w false (.ctxDone :: evs) calls resps = ⟨.cancelledErr, calls, w⟩
    ∧ (∀ a e m, PollOutcome.timedOutErr ≠ PollOutcome.cancelledErr
        ∧ PollOutcome.timedOutErr ≠ .token a e ∧ PollOutcome.timedOutErr ≠ .fatalErr m
        ∧ PollOutcome.cancelledErr ≠ .token a e ∧ PollOutcome.cancelledErr ≠ .fatalErr m) := by
  refine ⟨?_, ?_, ?_, ?_, ?_, ?_⟩
  · intro h
    rw [pollGo.eq_def]
    simp [h]
  · intro h1 h2
    rw [pollGo.eq_def]
    simp [h1, h2]
  · intro h1 h2
    rw [pollGo.eq_def]
    simp [h1, h2]
  · rw [pollGo.eq_def]
    rfl
  · rw [pollGo.eq_def]
    rfl
  · intro a e m
    refine ⟨by simp, by simp, by simp, by simp, by simp⟩

/--
Witness for C4: a pending error leaves the interval at 5 and continues;
a slow-down error continues with interval 12 = 7 + 5; an access-denied
error aborts at once; a timeout event aborts with the timeout error.
-/
theorem c4_poll_error_classification_witness :
    pollGo 5 5 false [.tick] 0 [.err "AuthorizationPendingException: not yet approved"] =
      pollGo 5 5 false [] 1 []
    ∧ pollGo 7 7 false [.tick] 0 [.err "SlowDownException: slow down"] =
      pollGo 7 12 false [] 1 []
    ∧ pollGo 5 5 false [.tick] 0 [.err "AccessDeniedException: no"] =
      ⟨.fatalErr "failed to create token: AccessDeniedException: no", 1, 5⟩
    ∧ pollGo 5 5 false [.timedOut] 0 [] = ⟨.timedOutErr, 0, 5⟩ := by
  refine ⟨?_, ?_, ?_, ?_⟩
  · exact (c4_poll_error_classification 5 5 [] 0 []
      "AuthorizationPendingException: not yet approved").1 (by decide)
  · exact (c4_poll_error_classification 7 7 [] 0 []
      "SlowDownException: slow down").2.1 (by decide) (by decide)
  · exact (c4_poll_error_classification 5 5 [] 0 []
      "AccessDeniedException: no").2.2.1 (by decide) (by decide)
  · exact (c4_poll_error_classification 5 5 [] 0 [] "").2.2.2.1

/-! ### Immediate first poll and exact call count (claim C5) -/

theorem pollGo_pending_run (base w : Int) (msg : String) (h : isAuthPending msg = true)
    (a : String) (e : Int) :
    ∀ (j calls : Nat) (evs : List PollEvent) (resps : List TokenResp),
      pollGo base w false (List.replicate (j + 1) .tick ++ evs) calls
        (List.replicate j (.err msg) ++ .ok a e :: resps) =
      ⟨.token a e, calls + j + 1, w⟩ := by
  intro j
  induction j with
  | zero =>
    intro calls evs resps
    rw [pollGo.eq_def]
    rfl
  | succ k ih =>
    intro calls evs resps
    rw [pollGo.eq_def]
    simp only [List.replicate_succ, List.cons_append, h, if_true, Bool.false_eq_true,
      if_false, reduceIte]
    have ih2 := ih (calls + 1) evs resps
    rw [List.replicate_succ, List.cons_append] at ih2
    rw [ih2]
    simp only [PollResult.mk.injEq, and_true, true_and]
    omega

/--
C5: the poll loop issues its first `CreateToken` request immediately,
before consuming any wait event; and for every `N ≥ 1`, against a token
endpoint answering authorization-pending for the first `N − 1` calls and
then succeeding, the polling stage of `Authenticate` makes exactly `N`
`CreateToken` calls and returns the eventual token, whose expiry is the
current time plus the returned `expiresIn` seconds.
-/
theorem c5_immediate_poll_and_call_count (n : Nat) (hn : 1 ≤ n) (deviceInterval now : Int)
    (msg a : String) (e : Int) (hmsg : isAuthPending msg = true) :
    pollForToken (effectiveInterval deviceInterval) [] [.ok a e] =
      ⟨.token a e, 1, effectiveInterval deviceInterval⟩
    ∧ authenticatePoll deviceInterval (List.replicate (n - 1) .tick)
        (List.replicate (n - 1) (.err msg) ++ [.ok a e]) =
      ⟨.token a e, n, effectiveInterval deviceInterval⟩
    ∧ tokenExpiresAt now e = now + e := by
  refine ⟨by rw [pollForToken, pollGo.eq_def]; rfl, ?_, rfl⟩
  obtain ⟨m, rfl⟩ : ∃ m, n = m + 1 := ⟨n - 1, by omega⟩
  simp only [Nat.add_sub_cancel]
  cases m with
  | zero =>
    rw [authenticatePoll, pollForToken, pollGo.eq_def]
    rfl
  | succ k =>
    rw [authenticatePoll, pollForToken, pollGo.eq_def]
    simp only [List.replicate_succ, List.cons_append, hmsg, if_true, Bool.false_eq_true,
      if_false, reduceIte]
    have run := pollGo_pending_run (effectiveInterval deviceInterval)
      (effectiveInterval deviceInterval) msg hmsg a e k 1 [] []
    rw [List.append_nil, List.replicate_succ] at run
    simp only [Nat.zero_add]
    rw [run]
    simp only [PollResult.mk.injEq, and_true, true_and]
    omega

/--
Witness for C5 at `N = 3`: two pending answers then success yield the
token after exactly three calls, and the first call needs no wait event.
-/
theorem c5_immediate_poll_and_call_count_witness :
    pollForToken 5 [] [.ok "tok" 3600] = ⟨.token "tok" 3600, 1, 5⟩
    ∧ authenticatePoll 5 (List.replicate 2 .tick)
        (List.replicate 2 (.err "AuthorizationPendingException") ++ [.ok "tok" 3600]) =
      ⟨.token "tok" 3600, 3, 5⟩
    ∧ tokenExpiresAt 1000 3600 = 1000 + 3600 := by
  have h := c5_immediate_poll_and_call_count 3 (by decide) 5 1000
    "AuthorizationPendingException" "tok" 3600 (by decide)
  exact ⟨by simpa using h.1, by simpa using h.2.1, h.2.2⟩

/-! ### Pending classification precedence (claim C10) -/

/--
C10: error classification is a case-sensitive substring match on the
full rendered message, checked for `AuthorizationPendingException`
before `SlowDownException`: any `CreateToken` error whose message
contains `AuthorizationPendingException` anywhere — even one that also
contains `SlowDownException`, or one that otherwise reads as fatal —
makes the loop continue polling with the ticker interval unchanged.
-/
theorem c10_pending_precedence (base w : Int) (evs : List PollEvent) (calls : Nat)
    (resps : List TokenResp) (msg : String)
    (h : strContains msg "AuthorizationPendingException" = true) :
    pollGo base w false (.tick :: evs) calls (.err msg :: resps) =
      pollGo base w false evs (calls + 1) resps
    ∧ pollGo base w true evs calls (.err msg :: resps) =
      pollGo base w false evs (calls + 1) resps
    ∧ isAuthPending msg = strContains msg "AuthorizationPendingException" := by
  refine ⟨?_, ?_, rfl⟩
  · rw [pollGo.eq_def]
    simp [isAuthPending, h]
  · rw [pollGo.eq_def]
    simp [isAuthPending, h]

/--
Witness for C10: a message containing both exception identifiers is
treated as pending — polling continues and the interval stays at 7, not
12.
-/
theorem c10_pending_precedence_witness :
    pollGo 7 7 false [.tick] 0
        [.err "SlowDownException inside AuthorizationPendingException report"] =
      pollGo 7 7 false [] 1 []
    ∧ isSlowDown "SlowDownException inside AuthorizationPendingException report" = true := by
  refine ⟨?_, by decide⟩
  exact (c10_pending_precedence 7 7 [] 0 []
    "SlowDownException inside AuthorizationPendingException report" (by decide)).1

/-! ### Pagination of catalog discovery (claim C6) -/

theorem listAccountsGo_ok :
    ∀ (mids : List AccountsPage) (lastP : AccountsPage),
      (∀ p ∈ mids, p.nextToken ≠ none) → lastP.nextToken = none →
      ∀ acc, listAccountsGo acc (mids.map .ok ++ [.ok lastP]) =
        some (.ok (acc ++ ((mids ++ [lastP]).map (fun p => p.accountList.map
          (fun a => ⟨a.accountId, a.accountName, a.emailAddress⟩))).flatten)) := by
  intro mids
  induction mids with
  | nil =>
    intro lastP _ hl acc
    simp [listAccountsGo, hl]
  | cons p rest ih =>
    intro lastP hm hl acc
    have hp : p.nextToken ≠ none := hm p (by simp)
    cases hpt : p.nextToken with
    | none => exact absurd hpt hp
    | some t =>
      simp only [List.map_cons, List.cons_append, listAccountsGo, hpt, List.append_eq]
      rw [ih lastP (fun q hq => hm q (by simp [hq])) hl]
      simp [List.append_assoc]

theorem listAccountsGo_err :
    ∀ (mids : List AccountsPage), (∀ p ∈ mids, p.nextToken ≠ none) →
    ∀ (m : String) (tail : List (ApiResp AccountsPage)) (acc : List DiscoveredAccount),
      listAccountsGo acc (mids.map .ok ++ .err m :: tail) =
        some (.error ("failed to list accounts: " ++ m)) := by
  intro mids
  induction mids with
  | nil =>
    intro _ m tail acc
    rfl
  | cons p rest ih =>
    intro hm m tail acc
    have hp : p.nextToken ≠ none := hm p (by simp)
    cases hpt : p.nextToken with
    | none => exact absurd hpt hp
    | some t =>
      simp only [List.map_cons, List.cons_append, listAccountsGo, hpt, List.append_eq]
      exact ih (fun q hq => hm q (by simp [hq])) m tail _

theorem listAccountRolesGo_ok :
    ∀ (mids : List RolesPage) (lastP : RolesPage),
      (∀ p ∈ mids, p.nextToken ≠ none) → lastP.nextToken = none →
      ∀ acc, listAccountRolesGo acc (mids.map .ok ++ [.ok lastP]) =
        some (.ok (acc ++ ((mids ++ [lastP]).map (fun p => p.roleList.map
          (fun r => ⟨r.accountId, r.roleName⟩))).flatten)) := by
  intro mids
  induction mids with
  | nil =>
    intro lastP _ hl acc
    simp [listAccountRolesGo, hl]
  | cons p rest ih =>
    intro lastP hm hl acc
    have hp : p.nextToken ≠ none := hm p (by simp)
    cases hpt : p.nextToken with
    | none => exact absurd hpt hp
    | some t =>
      simp only [List.map_cons, List.cons_append, listAccountRolesGo, hpt, List.append_eq]
      rw [ih lastP (fun q hq => hm q (by simp [hq])) hl]
      simp [List.append_assoc]

theorem listAccountRolesGo_err :
    ∀ (mids : List RolesPage), (∀ p ∈ mids, p.nextToken ≠ none) →
    ∀ (m : String) (tail : List (ApiResp RolesPage)) (acc : List DiscoveredRole),
      listAccountRolesGo acc (mids.map .ok ++ .err m :: tail) =
        some (.error ("failed to list account roles: " ++ m)) := by
  intro mids
  induction mids with
  | nil =>
    intro _ m tail acc
    rfl
  | cons p rest ih =>
    intro hm m tail acc
    have hp : p.nextToken ≠ none := hm p (by simp)
    cases hpt : p.nextToken with
    | none => exact absurd hpt hp
    | some t =>
      simp only [List.map_cons, List.cons_append, listAccountRolesGo, hpt, List.append_eq]
      exact ih (fun q hq => hm q (by simp [hq])) m tail _

/--
C6: `ListAccounts` (and likewise `ListAccountRoles`) follows the
continuation token through every page the provider reports, returning
the concatenation of all pages in provider order as one sequence; if any
page request fails, the whole call returns only the error — no partial
result.
-/
theorem c6_pagination_concat (mids : List AccountsPage) (lastP : AccountsPage)
    (rmids : List RolesPage) (rlast : RolesPage) (m m2 : String)
    (tailA : List (ApiResp AccountsPage)) (tailR : List (ApiResp RolesPage)) :
    ((∀ p ∈ mids, p.nextToken ≠ none) → lastP.nextToken = none →
      ListAccounts (mids.map .ok ++ [.ok lastP]) =
        some (.ok (((mids ++ [lastP]).map (fun p => p.accountList.map
          (fun a => ⟨a.accountId, a.accountName, a.emailAddress⟩))).flatten)))
    ∧ ((∀ p ∈ mids, p.nextToken ≠ none) →
      ListAccounts (mids.map .ok ++ .err m :: tailA) =
        some (.error ("failed to list accounts: " ++ m)))
    ∧ ((∀ p ∈ rmids, p.nextToken ≠ none) → rlast.nextToken = none →
      ListAccountRoles (rmids.map .ok ++ [.ok rlast]) =
        some (.ok (((rmids ++ [rlast]).map (fun p => p.roleList.map
          (fun r => ⟨r.accountId, r.roleName⟩))).flatten)))
    ∧ ((∀ p ∈ rmids, p.nextToken ≠ none) →
      ListAccountRoles (rmids.map .ok ++ .err m2 :: tailR) =
        some (.error ("failed to list account roles: " ++ m2))) := by
  refine ⟨?_, ?_, ?_, ?_⟩
  · intro hm hl
    have := listAccountsGo_ok mids lastP hm hl []
    simpa [ListAccounts] using this
  · intro hm
    exact listAccountsGo_err mids hm m tailA []
  · intro hm hl
    have := listAccountRolesGo_ok rmids rlast hm hl []
    simpa [ListAccountRoles] using this
  · intro hm
    exact listAccountRolesGo_err rmids hm m2 tailR []

/--
Witness for C6: a two-page account list and a two-page role list are
each assembled in order; an error on the second page yields only the
error.
-/
theorem c6_pagination_concat_witness :
    ListAccounts [.ok ⟨[⟨"1", "one", "e1"⟩], some "t"⟩, .ok ⟨[⟨"2", "two", "e2"⟩], none⟩] =
      some (.ok [⟨"1", "one", "e1"⟩, ⟨"2", "two", "e2"⟩])
    ∧ ListAccounts [.ok ⟨[⟨"1", "one", "e1"⟩], some "t"⟩, .err "boom"] =
      some (.error "failed to list accounts: boom")
    ∧ ListAccountRoles [.ok ⟨[⟨"1", "Admin"⟩], some "t"⟩, .ok ⟨[⟨"1", "ReadOnly"⟩], none⟩] =
      some (.ok [⟨"1", "Admin"⟩, ⟨"1", "ReadOnly"⟩])
    ∧ ListAccountRoles [.ok ⟨[⟨"1", "Admin"⟩], some "t"⟩, .err "boom"] =
      some (.error "failed to list account roles: boom") := by
  have h := c6_pagination_concat [⟨[⟨"1", "one", "e1"⟩], some "t"⟩] ⟨[⟨"2", "two", "e2"⟩], none⟩
    [⟨[⟨"1", "Admin"⟩], some "t"⟩] ⟨[⟨"1", "ReadOnly"⟩], none⟩ "boom" "boom" [] []
  refine ⟨?_, ?_, ?_, ?_⟩
  · simpa using h.1 (by decide) (by decide)
  · simpa using h.2.1 (by decide)
  · simpa using h.2.2.1 (by decide) (by decide)
  · simpa using h.2.2.2 (by decide)

/-! ### Profile-name allocation (claims C7 and C1) -/

theorem generateNamesGo_length (counts : String → Nat) :
    ∀ (rest : List String) (seen : String → Nat),
      (generateNamesGo counts seen rest).length = rest.length := by
  intro rest
  induction rest with
  | nil => intro seen; rfl
  | cons base rest ih =>
    intro seen
    by_cases hgt : counts base > 1 <;> simp [generateNamesGo, hgt, ih]

theorem generateNamesGo_specNames (counts : String → Nat) :
    ∀ (rest pre : List String) (seen : String → Nat),
      (∀ b, 1 < counts b → seen b = pre.count b) →
      generateNamesGo counts seen rest = specNames counts pre rest := by
  intro rest
  induction rest with
  | nil => intro pre seen _; rfl
  | cons base rest ih =>
    intro pre seen h
    by_cases hgt : counts base > 1
    · have hseen : seen base = pre.count base := h base hgt
      simp only [generateNamesGo, specNames, if_pos hgt]
      congr 1
      · rw [hseen]
        by_cases h0 : pre.count base = 0
        · rw [if_pos (by omega), if_pos h0]
        · rw [if_neg (by omega), if_neg h0]
      · apply ih
        intro b hb
        by_cases hbb : b = base
        · subst hbb
          rw [if_pos rfl, hseen, List.count_append]
          simp
        · rw [if_neg hbb, h b hb, List.count_append]
          have : [base].count b = 0 := by
            simp [List.count_singleton']
            exact fun heq => hbb heq.symm
          rw [this]
          omega
    · simp only [generateNamesGo, specNames, if_neg hgt]
      congr 1
      apply ih
      intro b hb
      have hbb : b ≠ base := by
        intro heq
        rw [heq] at hb
        omega
      rw [h b hb, List.count_append]
      have : [base].count b = 0 := by
        simp [List.count_singleton']
        exact fun heq => hbb heq.symm
      rw [this]
      omega

/--
C7: the allocator returns one name per binding in input order; the base
name is the lower-cased, hyphen-joined `<account>-<role>` with spaces
replaced by hyphens and fallback label `aws` for an empty account name;
a base name occurring more than once in the batch keeps the bare name on
its first occurrence and gets suffixes `-2`, `-3`, … on later
occurrences in first-seen order, while base names occurring exactly once
are untouched — and the spec's three worked examples evaluate as stated.
-/
theorem c7_name_allocation (profiles : List SSOProfile) :
    (GenerateUniqueProfileNames profiles).length = profiles.length
    ∧ GenerateUniqueProfileNames profiles =
        specNames
          (fun b => (profiles.map fun p => SuggestProfileName p.accountName p.roleName).count b)
          [] (profiles.map fun p => SuggestProfileName p.accountName p.roleName)
    ∧ SuggestProfileName "Production" "AdministratorAccess" = "production-administratoraccess"
    ∧ SuggestProfileName "" "Admin" = "aws-admin"
    ∧ GenerateUniqueProfileNames
        [⟨"", "", "", "", "Development", "Admin"⟩, ⟨"", "", "", "", "Development", "Admin"⟩,
         ⟨"", "", "", "", "Development", "Admin"⟩] =
        ["development-admin", "development-admin-2", "development-admin-3"] := by
  refine ⟨?_, ?_, by decide, by decide, by decide⟩
  · rw [GenerateUniqueProfileNames, generateNamesGo_length, List.length_map]
  · rw [GenerateUniqueProfileNames]
    exact generateNamesGo_specNames _ _ [] _ (fun b _ => rfl)

/--
C1: the allocator does NOT always return pairwise-distinct names.  On a
batch whose first binding's base name `a-b-2` coincides with the
suffixed name of the duplicated base `a-b`, the code returns
`a-b-2` twice.  This contradicts the function's own documentation
("generates unique profile names") and the spec's uniqueness invariant,
so the claim stands and the code is at fault.
-/
theorem c1_names_not_pairwise_distinct :
    GenerateUniqueProfileNames
      [⟨"", "", "", "", "a", "b-2"⟩, ⟨"", "", "", "", "a", "b"⟩, ⟨"", "", "", "", "a", "b"⟩] =
      ["a-b-2", "a-b", "a-b-2"]
    ∧ ¬ List.Pairwise (fun x y => x ≠ y)
        (GenerateUniqueProfileNames
          [⟨"", "", "", "", "a", "b-2"⟩, ⟨"", "", "", "", "a", "b"⟩, ⟨"", "", "", "", "a", "b"⟩]) := by
  refine ⟨by decide, ?_⟩
  intro h
  rw [show GenerateUniqueProfileNames
      [⟨"", "", "", "", "a", "b-2"⟩, ⟨"", "", "", "", "a", "b"⟩, ⟨"", "", "", "", "a", "b"⟩] =
      ["a-b-2", "a-b", "a-b-2"] from by decide] at h
  exact (List.pairwise_cons.mp h).1 "a-b-2" (by simp) rfl

end Saws
